import Mathlib

/-!
Verification of the ForeSight multi-file orchestration engine.

Shallow embedding of the orchestration core (`agents/meta_agent.py`) and its
per-category analysis adapters (`agents/image_deepfake_agent.py`,
`agents/audio_agent.py`, `agents/video_agent.py`, `agents/doc_misinfo_agent.py`).

Python data is modelled as follows: `dict`s that flow through `json.dumps`
are association lists of string keys and `Json` values; Python exceptions are
`Except String` (the error string is `str(e)`); external HTTP collaborators
(Reality Defender, AssemblyAI, Gemini, the ledger) are parameters of the
embedded functions, each a function returning `Except` to model that the
remote call may raise; Python floats are embedded as rationals.
-/

namespace ForeSight

/-- JSON values, the payloads carried inside the orchestrator's result dicts.
Numbers are modelled as integers scaled by the caller where needed; none of
the hashing claims depend on the numeric representation. -/
inductive Json where
  | null : Json
  | bool (b : Bool) : Json
  | num (n : Int) : Json
  | str (s : String) : Json
  | arr (xs : List Json) : Json
  | obj (fields : List (String × Json)) : Json

/-- Key comparison used by `json.dumps(..., sort_keys=True)`: fields are
ordered lexicographically by key. -/
def keyLe (a b : String × String) : Prop := a.1 ≤ b.1

instance : DecidableRel keyLe := fun a b => inferInstanceAs (Decidable (a.1 ≤ b.1))

instance : IsTotal (String × String) keyLe := ⟨fun a b => le_total a.1 b.1⟩

instance : IsTrans (String × String) keyLe := ⟨fun _ _ _ h h' => le_trans h h'⟩

/-- Sort rendered object fields by key, as `sort_keys=True` does. -/
def sortPairs (l : List (String × String)) : List (String × String) :=
  List.insertionSort keyLe l

/-- JSON string quoting (escape handling is irrelevant to every claim and
is omitted; the hashing claims only need the serialization to be a function
of the content). -/
def quoteStr (s : String) : String := "\"" ++ s ++ "\""

mutual

/-- `json.dumps(obj, sort_keys=True, separators=(",", ":"))` from
`meta_agent._make_hash`: canonical serialization, keys sorted
lexicographically, compact separators, no insignificant whitespace. -/
def dumps : Json → String
  | .null => "null"
  | .bool b => if b then "true" else "false"
  | .num n => toString n
  | .str s => quoteStr s
  | .arr xs => "[" ++ String.intercalate "," (dumpsList xs) ++ "]"
  | .obj fs =>
      "\x7b" ++
        String.intercalate ","
          ((sortPairs (dumpsFields fs)).map (fun kv => quoteStr kv.1 ++ ":" ++ kv.2)) ++
      "\x7d"

/-- Serialize each element of a JSON array. -/
def dumpsList : List Json → List String
  | [] => []
  | x :: xs => dumps x :: dumpsList xs

/-- Render each field's value, keeping the key for later sorting. -/
def dumpsFields : List (String × Json) → List (String × String)
  | [] => []
  | (k, v) :: fs => (k, dumps v) :: dumpsFields fs

end

/-- `meta_agent._make_hash`: `hashlib.sha256(s.encode()).hexdigest()` applied
to the canonical serialization. SHA-256 itself is an external primitive
(`hashlib`); it is a deterministic pure function, so it is modelled as an
arbitrary function parameter `sha` — every claim about `_make_hash` is a
congruence property of the serialization, which holds for every `sha`. -/
def make_hash (sha : String → String) (obj : Json) : String :=
  sha (dumps obj)

/-- Python dict assignment `d[k] = v` on the association-list model: replace
the first binding of `k`, or append a new binding at the end (CPython dicts
preserve insertion order and keep the original position on overwrite). -/
def setKey : List (String × Json) → String → Json → List (String × Json)
  | [], k, v => [(k, v)]
  | (k', v') :: rest, k, v =>
      if k' = k then (k, v) :: rest else (k', v') :: setKey rest k v

/-- Python `d.update(m)`: assign every binding of `m` into `d` in order. -/
def dictUpdate (d : List (String × Json)) (m : List (String × Json)) :
    List (String × Json) :=
  m.foldl (fun acc kv => setKey acc kv.1 kv.2) d

theorem lookup_setKey_self (l : List (String × Json)) (k : String) (v : Json) :
    (setKey l k v).lookup k = some v := by
  induction l with
  | nil => simp [setKey, List.lookup]
  | cons kv rest ih =>
      obtain ⟨k1, v1⟩ := kv
      by_cases h : k1 = k
      · simp [setKey, h, List.lookup]
      · have hne : (k == k1) = false := beq_eq_false_iff_ne.mpr (Ne.symm h)
        simp [setKey, h, List.lookup, hne, ih]

theorem lookup_setKey_other (l : List (String × Json)) (k k' : String) (v : Json)
    (h : k ≠ k') : (setKey l k' v).lookup k = l.lookup k := by
  have hne : (k == k') = false := beq_eq_false_iff_ne.mpr h
  induction l with
  | nil => simp [setKey, List.lookup, hne]
  | cons kv rest ih =>
      obtain ⟨k1, v1⟩ := kv
      by_cases hk : k1 = k'
      · subst hk
        simp [setKey, List.lookup, hne]
      · simp only [setKey, if_neg hk, List.lookup]
        cases hb : (k == k1) <;> simp [hb, ih]

/-- Keys of `setKey l k v` are the keys of `l` plus `k`. -/
theorem mem_keys_setKey (l : List (String × Json)) (k a : String) (v : Json) :
    a ∈ (setKey l k v).map Prod.fst ↔ a ∈ l.map Prod.fst ∨ a = k := by
  induction l with
  | nil => simp [setKey]
  | cons kv rest ih =>
      obtain ⟨k1, v1⟩ := kv
      by_cases h : k1 = k
      · subst h
        have hs : setKey ((k1, v1) :: rest) k1 v = (k1, v) :: rest := by
          simp [setKey]
        rw [hs]
        simp only [List.map_cons, List.mem_cons]
        tauto
      · simp only [setKey, if_neg h, List.map_cons, List.mem_cons, ih]
        tauto

/-- Keys of `dictUpdate d m` are the keys of `d` together with those of `m`. -/
theorem mem_keys_dictUpdate (d m : List (String × Json)) (a : String) :
    a ∈ (dictUpdate d m).map Prod.fst ↔ a ∈ d.map Prod.fst ∨ a ∈ m.map Prod.fst := by
  induction m generalizing d with
  | nil => simp [dictUpdate]
  | cons kv rest ih =>
      show a ∈ (dictUpdate (setKey d kv.1 kv.2) rest).map Prod.fst ↔ _
      rw [ih, mem_keys_setKey]
      simp
      tauto

/-- The media categories of `meta_process`'s buckets: the four bucket keys
`"images"`, `"video"`, `"audio"`, `"documents"` plus `"unsupported"`. -/
inductive MediaCategory where
  | images : MediaCategory
  | audio : MediaCategory
  | video : MediaCategory
  | documents : MediaCategory
  | unsupported : MediaCategory
deriving DecidableEq, Repr

/-- The bucket-key string of a category, as used for the `"type"` field of an
error result in `_run_pipeline_for_file` (`"type": ftype`). -/
def MediaCategory.key : MediaCategory → String
  | .images => "images"
  | .audio => "audio"
  | .video => "video"
  | .documents => "documents"
  | .unsupported => "unsupported"

/-- ASCII lower-casing of one character, as `str.lower()` does on the ASCII
range (all extensions and instruction keywords are ASCII). -/
def lowerChar (c : Char) : Char :=
  if 'A' ≤ c ∧ c ≤ 'Z' then Char.ofNat (c.toNat + 32) else c

/-- Python `str.lower()`. -/
def pyLower (s : String) : String := ⟨s.data.map lowerChar⟩

/-- The characters after the last occurrence of `sep`, the whole list if
`sep` does not occur: `p.rsplit(sep, 1)[-1]`. -/
def afterLast (sep : Char) (cs : List Char) : List Char :=
  (cs.reverse.takeWhile (fun c => c ≠ sep)).reverse

/-- `p.rsplit(".", 1)[-1].lower() if "." in p else ""` from `meta_process`:
the (lower-cased) text after the last dot, or `""` when there is no dot. -/
def extOf (p : String) : String :=
  if '.' ∈ p.data then ⟨(afterLast '.' p.data).map lowerChar⟩ else ""

/-- The extension-to-bucket classification of `meta_process` (lines 108-114):
images png/jpg/jpeg/gif, video mp4/mov/avi/mkv, audio mp3/wav/m4a,
documents txt/pdf/docx, everything else unsupported. -/
def classify (p : String) : MediaCategory :=
  let ext := extOf p
  if ext ∈ ["png", "jpg", "jpeg", "gif"] then .images
  else if ext ∈ ["mp4", "mov", "avi", "mkv"] then .video
  else if ext ∈ ["mp3", "wav", "m4a"] then .audio
  else if ext ∈ ["txt", "pdf", "docx"] then .documents
  else .unsupported

/-- The per-category bucket built by the classification loop of
`meta_process`: each path is appended to the bucket of its category, so a
bucket holds, in input order, exactly the paths classified to it. -/
def bucket : List String → MediaCategory → List String
  | [], _ => []
  | p :: ps, t => (if classify p = t then [p] else []) ++ bucket ps t

/-- Whether `pre` is a prefix of `l` (helper for substring containment). -/
def startsWithList : List Char → List Char → Bool
  | _, [] => true
  | [], _ :: _ => false
  | a :: as, b :: bs => a = b && startsWithList as bs

/-- Whether `sub` occurs contiguously in `l`. -/
def containsSub (sub : List Char) : List Char → Bool
  | [] => sub.isEmpty
  | c :: cs => startsWithList (c :: cs) sub || containsSub sub cs

/-- `any(w in instr for w in ("transcript", "audio"))`: Python substring
containment against the lower-cased instruction string. -/
def strIn (sub s : String) : Bool := containsSub sub.data s.data

/-- Keyword flag for the `audio` bucket in `_parse_priority_from_instructions`. -/
def mentionsAudio (instr : String) : Bool := strIn "transcript" instr || strIn "audio" instr

/-- Keyword flag for the `images` bucket. -/
def mentionsImages (instr : String) : Bool :=
  strIn "image" instr || strIn "photo" instr || strIn "fake" instr

/-- Keyword flag for the `video` bucket. -/
def mentionsVideo (instr : String) : Bool :=
  strIn "video" instr || strIn "clip" instr || strIn "mp4" instr

/-- Keyword flag for the `documents` bucket. -/
def mentionsDocuments (instr : String) : Bool :=
  strIn "doc" instr || strIn "file" instr || strIn "text" instr

/-- The fallback loop `for t in ("documents", "video", "images", "audio"):
if t not in buckets: buckets.append(t)`. -/
def addIfMissing (l : List MediaCategory) (t : MediaCategory) : List MediaCategory :=
  if t ∈ l then l else l ++ [t]

/-- `_parse_priority_from_instructions` as a function of the four keyword
flags: explicitly mentioned buckets first (in check order audio, images,
video, documents), then the fixed fallback order for the rest. -/
def buildPriority (a i v d : Bool) : List MediaCategory :=
  let buckets :=
    (if a then [MediaCategory.audio] else []) ++
    (if i then [MediaCategory.images] else []) ++
    (if v then [MediaCategory.video] else []) ++
    (if d then [MediaCategory.documents] else [])
  [MediaCategory.documents, MediaCategory.video,
   MediaCategory.images, MediaCategory.audio].foldl addIfMissing buckets

/-- `meta_agent._parse_priority_from_instructions` (lines 41-50). -/
def parsePriority (instructions : String) : List MediaCategory :=
  let instr := (pyLower instructions)
  buildPriority (mentionsAudio instr) (mentionsImages instr)
    (mentionsVideo instr) (mentionsDocuments instr)

/-- Whether the instruction string explicitly mentions a category, i.e. the
corresponding keyword test of `_parse_priority_from_instructions` fires. -/
def mentionedCat (instructions : String) : MediaCategory → Bool :=
  fun c =>
    let instr := (pyLower instructions)
    match c with
    | .audio => mentionsAudio instr
    | .images => mentionsImages instr
    | .video => mentionsVideo instr
    | .documents => mentionsDocuments instr
    | .unsupported => false

/-- The four keyword flags, seen as a predicate on categories. -/
def flagOf (a i v d : Bool) : MediaCategory → Bool
  | .audio => a
  | .images => i
  | .video => v
  | .documents => d
  | .unsupported => false

/-- Exhaustive check of `buildPriority` over the 16 flag combinations:
permutation of the four categories, no duplicates, never `unsupported`,
mentioned categories strictly precede non-mentioned ones, and the
non-mentioned tail keeps the fallback order documents, video, images,
audio. -/
theorem buildPriority_spec : ∀ a i v d : Bool,
    (buildPriority a i v d).Perm
      [MediaCategory.audio, MediaCategory.images,
       MediaCategory.video, MediaCategory.documents] ∧
    (buildPriority a i v d).Nodup ∧
    MediaCategory.unsupported ∉ buildPriority a i v d ∧
    (∀ (x y : Fin (buildPriority a i v d).length),
        flagOf a i v d ((buildPriority a i v d).get x) = true →
        flagOf a i v d ((buildPriority a i v d).get y) = false →
        x.val < y.val) ∧
    ((buildPriority a i v d).filter (fun c => !(flagOf a i v d c)) =
      [MediaCategory.documents, MediaCategory.video,
       MediaCategory.images, MediaCategory.audio].filter
        (fun c => !(flagOf a i v d c))) := by
  decide

theorem mentionedCat_eq_flagOf (instructions : String) :
    mentionedCat instructions =
      flagOf (mentionsAudio (pyLower instructions)) (mentionsImages (pyLower instructions))
        (mentionsVideo (pyLower instructions)) (mentionsDocuments (pyLower instructions)) := by
  funext c
  cases c <;> rfl

theorem parsePriority_eq_buildPriority (instructions : String) :
    parsePriority instructions =
      buildPriority (mentionsAudio (pyLower instructions))
        (mentionsImages (pyLower instructions)) (mentionsVideo (pyLower instructions))
        (mentionsDocuments (pyLower instructions)) := rfl

theorem parsePriority_perm (instructions : String) :
    (parsePriority instructions).Perm
      [MediaCategory.audio, MediaCategory.images,
       MediaCategory.video, MediaCategory.documents] := by
  rw [parsePriority_eq_buildPriority]
  exact (buildPriority_spec _ _ _ _).1

theorem parsePriority_nodup (instructions : String) :
    (parsePriority instructions).Nodup := by
  rw [parsePriority_eq_buildPriority]
  exact (buildPriority_spec _ _ _ _).2.1

theorem unsupported_not_mem_parsePriority (instructions : String) :
    MediaCategory.unsupported ∉ parsePriority instructions := by
  rw [parsePriority_eq_buildPriority]
  exact (buildPriority_spec _ _ _ _).2.2.1

/-- `os.path.basename`: the text after the last path separator. -/
def basename (p : String) : String := ⟨afterLast '/' p.data⟩

/-- One entry of `meta_process`'s `results` list, as built by
`_run_pipeline_for_file`: the dict keys `file`, `type`, `report`, `error`,
`text`, each present (`some`) only on the code paths that set them. -/
structure FileResult where
  file : String
  type : Option String
  report : Option Json
  error : Option String
  text : Option String

/-- The adapter calls made by `_run_pipeline_for_file`, as functions of the
file path. Each returns `Except String Json`: `.error e` models the call
raising an exception with `str(e) = e` (network failure, missing API key,
provider error...), `.ok` a normal report payload. `read_doc` models
`read_files_from_paths`, which catches its own per-file errors and always
returns a string; `doc_analyze` models `run_gemini_analysis` applied to that
text. -/
structure Adapters where
  image : String → Except String Json
  audio : String → Except String Json
  video : String → Except String Json
  read_doc : String → String
  doc_analyze : String → Except String Json

/-- The adapter invocation that `_run_pipeline_for_file` performs for a file
of the given bucket; the `unsupported` arm performs no call (the Python
function falls through to `return {"file": fname, "type": "unsupported"}`). -/
def adapterCall (A : Adapters) (p : String) : MediaCategory → Except String Json
  | .images => A.image p
  | .audio => A.audio p
  | .video => A.video p
  | .documents => A.doc_analyze (A.read_doc p)
  | .unsupported => .ok .null

/-- `meta_agent._run_pipeline_for_file` (lines 52-83): dispatch on the bucket
name, await the adapter, and wrap the outcome; the enclosing
`try ... except Exception as e` converts any raised exception into
`{"file": fname, "type": ftype, "error": str(e)}`. -/
def run_pipeline_for_file (A : Adapters) (p : String) (t : MediaCategory) : FileResult :=
  let fname := basename p
  match t with
  | .images =>
      match A.image p with
      | .ok r => ⟨fname, some "image", some r, none, none⟩
      | .error e => ⟨fname, some "images", none, some e, none⟩
  | .audio =>
      match A.audio p with
      | .ok r => ⟨fname, some "audio", some r, none, none⟩
      | .error e => ⟨fname, some "audio", none, some e, none⟩
  | .video =>
      match A.video p with
      | .ok r => ⟨fname, some "video", some r, none, none⟩
      | .error e => ⟨fname, some "video", none, some e, none⟩
  | .documents =>
      let text := A.read_doc p
      match A.doc_analyze text with
      | .ok r => ⟨fname, some "document", some r, none, some text⟩
      | .error e => ⟨fname, some "documents", none, some e, none⟩
  | .unsupported => ⟨fname, some "unsupported", none, none, none⟩

/-- The dispatch loop of `meta_process` (lines 120-123): for every bucket in
priority order, for every file of that bucket in input order, append the
result of `_run_pipeline_for_file`. -/
def metaResults (A : Adapters) (file_paths : List String) (user_instructions : String) :
    List FileResult :=
  (parsePriority user_instructions).flatMap
    (fun t => (bucket file_paths t).map (fun f => run_pipeline_for_file A f t))

/-- Whether an adapter call raised (the scheduler's `except` path taken). -/
def exceptFails : Except String Json → Bool
  | .error _ => true
  | .ok _ => false

theorem bucket_eq_filter (paths : List String) (t : MediaCategory) :
    bucket paths t = paths.filter (fun p => decide (classify p = t)) := by
  induction paths with
  | nil => rfl
  | cons p ps ih =>
      by_cases h : classify p = t
      · simp [bucket, h, ih, List.filter_cons]
      · simp [bucket, h, ih, List.filter_cons]

theorem mem_bucket (paths : List String) (t : MediaCategory) (p : String) :
    p ∈ bucket paths t ↔ p ∈ paths ∧ classify p = t := by
  rw [bucket_eq_filter]
  simp

theorem file_run_pipeline (A : Adapters) (p : String) (t : MediaCategory) :
    (run_pipeline_for_file A p t).file = basename p := by
  cases t with
  | images => simp only [run_pipeline_for_file]; cases A.image p <;> rfl
  | audio => simp only [run_pipeline_for_file]; cases A.audio p <;> rfl
  | video => simp only [run_pipeline_for_file]; cases A.video p <;> rfl
  | documents =>
      simp only [run_pipeline_for_file]
      cases A.doc_analyze (A.read_doc p) <;> rfl
  | unsupported => rfl

theorem countP_or_disjoint (p q : α → Bool) (h : ∀ a, ¬(p a = true ∧ q a = true)) :
    ∀ l : List α, l.countP (fun a => p a || q a) = l.countP p + l.countP q := by
  intro l
  induction l with
  | nil => rfl
  | cons a l ih =>
      rw [List.countP_cons, List.countP_cons, List.countP_cons, ih]
      cases hp : p a <;> cases hq : q a <;> simp <;> try omega
      exact absurd ⟨hp, hq⟩ (h a)

/-- Core counting identity for the dispatch loop: over any duplicate-free
category list, every path classified into one of those categories
contributes exactly one result. -/
theorem countP_dispatch (A : Adapters) (paths : List String)
    (pred : FileResult → Bool) :
    ∀ l : List MediaCategory, l.Nodup →
      ((l.flatMap fun t => (bucket paths t).map
          (fun f => run_pipeline_for_file A f t)).countP pred)
        = paths.countP
            (fun p => pred (run_pipeline_for_file A p (classify p)) &&
              decide (classify p ∈ l)) := by
  intro l hnd
  induction l with
  | nil =>
      simp only [List.flatMap_nil, List.countP_nil]
      symm
      rw [List.countP_eq_zero]
      intro a _
      simp
  | cons t l ih =>
      have ht : t ∉ l := (List.nodup_cons.mp hnd).1
      have hndl : l.Nodup := (List.nodup_cons.mp hnd).2
      rw [List.flatMap_cons, List.countP_append, ih hndl, List.countP_map,
        bucket_eq_filter, List.countP_filter]
      have hcongr :
          paths.countP (fun p =>
              (pred ∘ fun f => run_pipeline_for_file A f t) p &&
                decide (classify p = t))
            = paths.countP (fun p =>
                pred (run_pipeline_for_file A p (classify p)) &&
                  decide (classify p = t)) := by
        apply List.countP_congr
        intro p _
        by_cases hc : classify p = t
        · rw [hc]
          exact Iff.rfl
        · simp [hc]
      rw [hcongr]
      have hor := countP_or_disjoint
        (fun p => pred (run_pipeline_for_file A p (classify p)) &&
          decide (classify p = t))
        (fun p => pred (run_pipeline_for_file A p (classify p)) &&
          decide (classify p ∈ l))
        (by
          intro p hboth
          rcases hboth with ⟨h1, h2⟩
          have e1 : classify p = t := by
            have := (Bool.and_eq_true _ _).mp h1
            exact of_decide_eq_true this.2
          have e2 : classify p ∈ l := by
            have := (Bool.and_eq_true _ _).mp h2
            exact of_decide_eq_true this.2
          exact ht (e1 ▸ e2)) paths
      rw [← hor]
      apply List.countP_congr
      intro p _
      by_cases h1 : classify p = t <;> by_cases h2 : classify p ∈ l <;>
        simp [h1, h2, List.mem_cons] <;> tauto

/-- Membership in the priority order is exactly being a classified
(non-unsupported) category. -/
theorem mem_parsePriority_iff (instructions : String) (c : MediaCategory) :
    c ∈ parsePriority instructions ↔ c ≠ MediaCategory.unsupported := by
  rw [(parsePriority_perm instructions).mem_iff]
  cases c <;> simp

/-- Count of results over the whole dispatch, as a count over input paths. -/
theorem countP_metaResults (A : Adapters) (paths : List String) (instr : String)
    (pred : FileResult → Bool) :
    (metaResults A paths instr).countP pred
      = paths.countP
          (fun p => pred (run_pipeline_for_file A p (classify p)) &&
            decide (classify p ≠ MediaCategory.unsupported)) := by
  rw [metaResults, countP_dispatch A paths pred _ (parsePriority_nodup instr)]
  apply List.countP_congr
  intro p _
  rw [decide_eq_decide.mpr (mem_parsePriority_iff instr (classify p))]

theorem error_isSome_run (A : Adapters) (p : String) (t : MediaCategory) :
    (run_pipeline_for_file A p t).error.isSome = exceptFails (adapterCall A p t) := by
  cases t with
  | images => cases h : A.image p <;> simp [run_pipeline_for_file, adapterCall, h, exceptFails]
  | audio => cases h : A.audio p <;> simp [run_pipeline_for_file, adapterCall, h, exceptFails]
  | video => cases h : A.video p <;> simp [run_pipeline_for_file, adapterCall, h, exceptFails]
  | documents =>
      cases h : A.doc_analyze (A.read_doc p) <;>
        simp [run_pipeline_for_file, adapterCall, h, exceptFails]
  | unsupported => rfl

/-- Claim C1: the `results` sequence of `meta_process` is the concatenation,
following the priority order, of each category's files in supplied order;
one entry per classified file (whatever each adapter call does), entries only
for classified files, and `len(results)` equals the number of classified
(non-unsupported) files. -/
theorem meta_process_results_complete (A : Adapters) (paths : List String)
    (instr : String) :
    (metaResults A paths instr).map FileResult.file
        = (parsePriority instr).flatMap (fun t => (bucket paths t).map basename) ∧
    (metaResults A paths instr).length
        = (paths.filter (fun p => decide (classify p ≠ MediaCategory.unsupported))).length ∧
    ∀ r ∈ metaResults A paths instr,
      ∃ p, p ∈ paths ∧ classify p ≠ MediaCategory.unsupported ∧ r.file = basename p := by
  refine ⟨?_, ?_, ?_⟩
  · rw [metaResults, List.map_flatMap]
    refine congrArg (List.flatMap (parsePriority instr)) (funext fun t => ?_)
    rw [List.map_map]
    exact List.map_congr_left (fun f _ => file_run_pipeline A f t)
  · have h := countP_metaResults A paths instr (fun _ => true)
    rw [List.countP_true] at h
    rw [h, List.countP_eq_length_filter]
    have hpred : (fun p => true && decide (classify p ≠ MediaCategory.unsupported))
        = (fun p => decide (classify p ≠ MediaCategory.unsupported)) := by
      funext p
      simp
    rw [hpred]
  · intro r hr
    rw [metaResults, List.mem_flatMap] at hr
    obtain ⟨t, htl, hr⟩ := hr
    rw [List.mem_map] at hr
    obtain ⟨f, hf, hrf⟩ := hr
    obtain ⟨hfp, hft⟩ := (mem_bucket paths t f).mp hf
    refine ⟨f, hfp, ?_, ?_⟩
    · rw [hft]
      exact (mem_parsePriority_iff instr t).mp htl
    · rw [← hrf]
      exact file_run_pipeline A f t

/-- Stub adapters where every call succeeds with a trivial payload. -/
def stubAdapters : Adapters where
  image := fun _ => .ok .null
  audio := fun _ => .ok .null
  video := fun _ => .ok .null
  read_doc := fun _ => ""
  doc_analyze := fun _ => .ok .null

theorem meta_process_results_complete_witness :
    (metaResults stubAdapters ["a.png", "b.mp3", "x.bin"] "").length
        = (["a.png", "b.mp3", "x.bin"].filter
            (fun p => decide (classify p ≠ MediaCategory.unsupported))).length ∧
    (metaResults stubAdapters ["a.png", "b.mp3", "x.bin"] "").length = 2 :=
  ⟨(meta_process_results_complete stubAdapters ["a.png", "b.mp3", "x.bin"] "").2.1,
   by decide⟩

/-- Claim C2: for every instruction string the parsed priority order is a
duplicate-free permutation of the four categories in which every explicitly
mentioned category precedes every non-mentioned one, and the non-mentioned
categories keep the fallback order documents, video, images, audio. -/
theorem priority_order_is_permutation (instructions : String) :
    (parsePriority instructions).Perm
      [MediaCategory.audio, MediaCategory.images,
       MediaCategory.video, MediaCategory.documents] ∧
    (parsePriority instructions).Nodup ∧
    (∀ (x y : Fin (parsePriority instructions).length),
        mentionedCat instructions ((parsePriority instructions).get x) = true →
        mentionedCat instructions ((parsePriority instructions).get y) = false →
        x.val < y.val) ∧
    ((parsePriority instructions).filter (fun c => !(mentionedCat instructions c)) =
      [MediaCategory.documents, MediaCategory.video,
       MediaCategory.images, MediaCategory.audio].filter
        (fun c => !(mentionedCat instructions c))) := by
  rw [mentionedCat_eq_flagOf, parsePriority_eq_buildPriority]
  obtain ⟨h1, h2, _, h4, h5⟩ := buildPriority_spec (mentionsAudio (pyLower instructions))
    (mentionsImages (pyLower instructions)) (mentionsVideo (pyLower instructions))
    (mentionsDocuments (pyLower instructions))
  exact ⟨h1, h2, h4, h5⟩

theorem priority_order_is_permutation_witness :
    (parsePriority "find fake images").Perm
      [MediaCategory.audio, MediaCategory.images,
       MediaCategory.video, MediaCategory.documents] ∧
    (parsePriority "find fake images").Nodup ∧
    parsePriority "find fake images"
      = [MediaCategory.images, MediaCategory.documents,
         MediaCategory.video, MediaCategory.audio] :=
  ⟨(priority_order_is_permutation "find fake images").1,
   (priority_order_is_permutation "find fake images").2.1,
   by decide⟩

/-- Claim C3: an adapter exception is caught by the scheduler and becomes a
FileResult with `error` = the exception text, `type` = the file's bucket
name and no `report`; and over any batch the output length stays the number
of classified files while the number of `error` entries equals the number of
failing adapter calls (so one failure among N files gives N entries with one
error entry and N-1 normal ones). -/
theorem scheduler_isolates_adapter_failures :
    (∀ (A : Adapters) (p : String) (t : MediaCategory) (e : String),
        adapterCall A p t = .error e →
        run_pipeline_for_file A p t
          = ⟨basename p, some t.key, none, some e, none⟩) ∧
    ∀ (A : Adapters) (paths : List String) (instr : String),
      (metaResults A paths instr).length
          = (paths.filter
              (fun p => decide (classify p ≠ MediaCategory.unsupported))).length ∧
      (metaResults A paths instr).countP (fun r => r.error.isSome)
          = paths.countP (fun p => exceptFails (adapterCall A p (classify p)) &&
              decide (classify p ≠ MediaCategory.unsupported)) ∧
      (metaResults A paths instr).countP (fun r => r.error.isNone)
          = (metaResults A paths instr).length -
              (metaResults A paths instr).countP (fun r => r.error.isSome) := by
  constructor
  · intro A p t e h
    cases t with
    | images =>
        simp only [adapterCall] at h
        simp [run_pipeline_for_file, h, MediaCategory.key]
    | audio =>
        simp only [adapterCall] at h
        simp [run_pipeline_for_file, h, MediaCategory.key]
    | video =>
        simp only [adapterCall] at h
        simp [run_pipeline_for_file, h, MediaCategory.key]
    | documents =>
        simp only [adapterCall] at h
        simp [run_pipeline_for_file, h, MediaCategory.key]
    | unsupported => simp [adapterCall] at h
  · intro A paths instr
    refine ⟨(meta_process_results_complete A paths instr).2.1, ?_, ?_⟩
    · rw [countP_metaResults]
      apply List.countP_congr
      intro p _
      rw [error_isSome_run]
    · have hsplit := List.length_eq_countP_add_countP
        (fun r : FileResult => r.error.isSome) (metaResults A paths instr)
      have hcongr : (metaResults A paths instr).countP
            (fun r => decide ¬(r.error.isSome = true))
          = (metaResults A paths instr).countP (fun r => r.error.isNone) := by
        apply List.countP_congr
        intro r _
        cases r.error <;> simp
      omega

/-- Adapters where exactly the audio call on `"a.mp3"` raises. -/
def oneFailAdapters : Adapters where
  image := fun _ => .ok .null
  audio := fun p => if p = "a.mp3" then .error "boom" else .ok .null
  video := fun _ => .ok .null
  read_doc := fun _ => ""
  doc_analyze := fun _ => .ok .null

theorem scheduler_isolates_adapter_failures_witness :
    run_pipeline_for_file oneFailAdapters "a.mp3" MediaCategory.audio
        = ⟨"a.mp3", some "audio", none, some "boom", none⟩ ∧
    (metaResults oneFailAdapters ["b.txt", "a.mp3", "c.png"] "").length = 3 ∧
    (metaResults oneFailAdapters ["b.txt", "a.mp3", "c.png"] "").countP
        (fun r => r.error.isSome) = 1 ∧
    (metaResults oneFailAdapters ["b.txt", "a.mp3", "c.png"] "").countP
        (fun r => r.error.isNone) = 2 := by
  have hb := scheduler_isolates_adapter_failures.2 oneFailAdapters
    ["b.txt", "a.mp3", "c.png"] ""
  have h1 : (metaResults oneFailAdapters ["b.txt", "a.mp3", "c.png"] "").length = 3 :=
    hb.1.trans (by decide)
  have h2 : (metaResults oneFailAdapters ["b.txt", "a.mp3", "c.png"] "").countP
      (fun r => r.error.isSome) = 1 := hb.2.1.trans (by decide)
  have h3 : (metaResults oneFailAdapters ["b.txt", "a.mp3", "c.png"] "").countP
      (fun r => r.error.isNone) = 2 := by
    rw [hb.2.2, h1, h2]
  exact ⟨scheduler_isolates_adapter_failures.1 oneFailAdapters "a.mp3"
      MediaCategory.audio "boom" (by simp [adapterCall, oneFailAdapters]),
    h1, h2, h3⟩

/-- Strict key order on rendered fields. -/
def keyLt (a b : String × String) : Prop := a.1 < b.1

instance : IsAntisymm (String × String) keyLt :=
  ⟨fun _ _ h h' => absurd h' (lt_asymm h)⟩

theorem dumpsFields_eq_map (fs : List (String × Json)) :
    dumpsFields fs = fs.map (fun kv => (kv.1, dumps kv.2)) := by
  induction fs with
  | nil => simp [dumpsFields]
  | cons kv rest ih =>
      obtain ⟨k, v⟩ := kv
      simp [dumpsFields, ih]

theorem sorted_strict_of_nodup_keys {l : List (String × String)}
    (hs : List.Sorted keyLe l) (hn : (l.map Prod.fst).Nodup) :
    List.Sorted keyLt l := by
  have hne : List.Pairwise (fun a b : String × String => a.1 ≠ b.1) l :=
    List.pairwise_map.mp hn
  exact (hs.and hne).imp (fun h => lt_of_le_of_ne h.1 h.2)

/-- Key-sorting is insensitive to the input order whenever keys are
duplicate-free: the sorted rendered field lists of two permuted inputs
coincide. -/
theorem sortPairs_perm_eq {l₁ l₂ : List (String × String)} (hperm : l₁.Perm l₂)
    (hn : (l₁.map Prod.fst).Nodup) : sortPairs l₁ = sortPairs l₂ := by
  have hp₁ := List.perm_insertionSort keyLe l₁
  have hp₂ := List.perm_insertionSort keyLe l₂
  have hchain : (sortPairs l₁).Perm (sortPairs l₂) :=
    (hp₁.trans hperm).trans hp₂.symm
  have hn₁ : ((sortPairs l₁).map Prod.fst).Nodup :=
    ((hp₁.map Prod.fst).nodup_iff).mpr hn
  have hn₂ : ((sortPairs l₂).map Prod.fst).Nodup :=
    ((hchain.map Prod.fst).nodup_iff).mp hn₁
  exact List.eq_of_perm_of_sorted hchain
    (sorted_strict_of_nodup_keys (List.sorted_insertionSort keyLe l₁) hn₁)
    (sorted_strict_of_nodup_keys (List.sorted_insertionSort keyLe l₂) hn₂)

/-- Claim C5: `_make_hash` is a function of the key/value content only:
two bundles whose fields were inserted in different orders (a permutation)
but with identical keys mapped to identical values hash identically, because
the serialization sorts keys and uses compact separators. Stated for every
hash function `sha`, hence in particular for SHA-256. -/
theorem make_hash_insertion_order_invariant (sha : String → String)
    (fields₁ fields₂ : List (String × Json)) (hperm : fields₁.Perm fields₂)
    (hnodup : (fields₁.map Prod.fst).Nodup) :
    make_hash sha (Json.obj fields₁) = make_hash sha (Json.obj fields₂) := by
  unfold make_hash
  have hmap : (dumpsFields fields₁).Perm (dumpsFields fields₂) := by
    rw [dumpsFields_eq_map, dumpsFields_eq_map]
    exact hperm.map _
  have hkeys : ((dumpsFields fields₁).map Prod.fst).Nodup := by
    rw [dumpsFields_eq_map, List.map_map]
    exact hnodup
  have hsort : sortPairs (dumpsFields fields₁) = sortPairs (dumpsFields fields₂) :=
    sortPairs_perm_eq hmap hkeys
  show sha (dumps (Json.obj fields₁)) = sha (dumps (Json.obj fields₂))
  simp only [dumps, hsort]

theorem make_hash_insertion_order_invariant_witness :
    (([("b", Json.num 2), ("a", Json.num 1)] :
        List (String × Json)).map Prod.fst).Nodup ∧
    make_hash (fun s => s) (Json.obj [("b", Json.num 2), ("a", Json.num 1)])
      = make_hash (fun s => s) (Json.obj [("a", Json.num 1), ("b", Json.num 2)]) :=
  ⟨by decide,
   make_hash_insertion_order_invariant (fun s => s)
     [("b", Json.num 2), ("a", Json.num 1)] [("a", Json.num 1), ("b", Json.num 2)]
     (List.Perm.swap _ _ _) (by decide)⟩

/-- A `FileResult` as the dict appended to `results["results"]`: only the
keys actually set on the taken code path are present, in the insertion order
of `_run_pipeline_for_file`'s dict literals. -/
def jsonOfFileResult (r : FileResult) : Json :=
  .obj ([("file", Json.str r.file)]
    ++ (match r.type with | some t => [("type", Json.str t)] | none => [])
    ++ (match r.report with | some j => [("report", j)] | none => [])
    ++ (match r.error with | some e => [("error", Json.str e)] | none => [])
    ++ (match r.text with | some s => [("text", Json.str s)] | none => []))

/-- The bundle assembled by `meta_process` just before stamping:
`results = {"session_id": ..., "results": [...]}` followed by
`results.update(meta_output)`. -/
def assembleBundle (session_id : String) (rs : List FileResult)
    (meta_output : List (String × Json)) : List (String × Json) :=
  dictUpdate
    [("session_id", Json.str session_id),
     ("results", Json.arr (rs.map jsonOfFileResult))]
    meta_output

/-- The stamping tail of `meta_process` (lines 142-146): compute
`proof_hash = _make_hash(results)`, store it under `"proof_hash"`, then call
`log_verification_hash("0x" + proof_hash)`; on success store the receipt
under `"blockchain_tx"`, and if the ledger call raises store
`{"error": str(e)}` there instead. -/
def stampBundle (sha : String → String) (ledger : String → Except String Json)
    (results : List (String × Json)) : List (String × Json) :=
  let proof_hash := make_hash sha (Json.obj results)
  let r1 := setKey results "proof_hash" (Json.str proof_hash)
  match ledger ("0x" ++ proof_hash) with
  | .ok tx => setKey r1 "blockchain_tx" tx
  | .error e => setKey r1 "blockchain_tx" (Json.obj [("error", Json.str e)])

/-- `meta_agent.meta_process` (lines 103-148) with its collaborators as
parameters: the dispatch loop, the bundle assembly with the meta output
merged by `dict.update`, and the integrity stamping. The Gemini meta
synthesis result is the parameter `meta_output` (its content is opaque to
the stamping logic). -/
def meta_process (sha : String → String) (ledger : String → Except String Json)
    (A : Adapters) (session_id : String) (file_paths : List String)
    (user_instructions : String) (meta_output : List (String × Json)) :
    List (String × Json) :=
  stampBundle sha ledger
    (assembleBundle session_id (metaResults A file_paths user_instructions) meta_output)

/-- Claim C6: the proof hash stored by `meta_process` is the hash of the
bundle as assembled before the ledger receipt is attached — in particular,
whenever the meta output carries no `blockchain_tx` key, the hashed content
has no `blockchain_tx` field at all; and if the ledger call raises, the
returned bundle still carries the proof hash together with an explicit
`{"error": str(e)}` marker under `blockchain_tx`. -/
theorem proof_hash_excludes_receipt (sha : String → String)
    (ledger : String → Except String Json) (A : Adapters) (session_id : String)
    (file_paths : List String) (user_instructions : String)
    (meta_output : List (String × Json))
    (hm : "blockchain_tx" ∉ meta_output.map Prod.fst) :
    "blockchain_tx" ∉
      (assembleBundle session_id (metaResults A file_paths user_instructions)
        meta_output).map Prod.fst ∧
    (meta_process sha ledger A session_id file_paths user_instructions
        meta_output).lookup "proof_hash"
      = some (Json.str (make_hash sha (Json.obj
          (assembleBundle session_id (metaResults A file_paths user_instructions)
            meta_output)))) ∧
    (∀ e, ledger ("0x" ++ make_hash sha (Json.obj
          (assembleBundle session_id (metaResults A file_paths user_instructions)
            meta_output))) = .error e →
      (meta_process sha ledger A session_id file_paths user_instructions
          meta_output).lookup "blockchain_tx"
        = some (Json.obj [("error", Json.str e)])) := by
  refine ⟨?_, ?_, ?_⟩
  · rw [assembleBundle, mem_keys_dictUpdate]
    rintro (hin | hin)
    · simp at hin
    · exact hm hin
  · rw [meta_process, stampBundle]
    cases hl : ledger ("0x" ++ make_hash sha (Json.obj
        (assembleBundle session_id (metaResults A file_paths user_instructions)
          meta_output))) with
    | ok tx =>
        rw [lookup_setKey_other _ _ _ _ (by decide), lookup_setKey_self]
    | error e =>
        rw [lookup_setKey_other _ _ _ _ (by decide), lookup_setKey_self]
  · intro e he
    rw [meta_process, stampBundle, he, lookup_setKey_self]

/-- Ledger stub that always raises. -/
def failingLedger : String → Except String Json := fun _ => .error "Ledger down"

theorem proof_hash_excludes_receipt_witness :
    ("blockchain_tx" ∉
      ([("final_summary", Json.str "ok")] : List (String × Json)).map Prod.fst) ∧
    (meta_process (fun s => s) failingLedger stubAdapters "sess" ["a.txt"] ""
        [("final_summary", Json.str "ok")]).lookup "blockchain_tx"
      = some (Json.obj [("error", Json.str "Ledger down")]) :=
  ⟨by decide,
   (proof_hash_excludes_receipt (fun s => s) failingLedger stubAdapters "sess"
      ["a.txt"] "" [("final_summary", Json.str "ok")] (by decide)).2.2
     "Ledger down" rfl⟩

/-- Python slicing `s[:n]`: the first `n` characters (code points), the
whole string when it is shorter. -/
def pythonSlice (s : String) (n : Nat) : String := ⟨s.data.take n⟩

/-- ASCII apostrophe, kept out of string literals. -/
def apos : String := String.singleton (Char.ofNat 39)

/-- Everything of the `_generate_meta_intelligence` prompt (lines 88-93) that
precedes the evidence text: the header, the user instructions and the
rendered file summaries (`json.dumps(file_summaries, indent=2)` is the
parameter `file_summaries_json`; its rendering is external to the claim). -/
def metaContextHeader (user_instructions file_summaries_json : String) : String :=
  "\n    You are the " ++ apos ++ "Meta-Investigator" ++ apos ++
    " AI.\n    USER INSTRUCTIONS: " ++ user_instructions ++
    "\n    FILE SUMMARIES: " ++ file_summaries_json ++ "\n    EVIDENCE: "

/-- The text after the evidence in the prompt. -/
def metaContextTail : String := "\n    "

/-- The `context` f-string of `_generate_meta_intelligence`: the evidence
part is `aggregate_text[:25000]`. -/
def metaContext (user_instructions file_summaries_json aggregate_text : String) :
    String :=
  metaContextHeader user_instructions file_summaries_json ++
    pythonSlice aggregate_text 25000 ++ metaContextTail

/-- Claim C9: the evidence embedded in the prompt forwarded to the
meta-synthesis model call is exactly the first 25,000 characters of the
aggregate text — a prefix of the corpus, and the whole corpus when it has at
most 25,000 characters. -/
theorem meta_prompt_truncates_evidence (user_instructions file_summaries_json
    aggregate_text : String) :
    metaContext user_instructions file_summaries_json aggregate_text
        = metaContextHeader user_instructions file_summaries_json ++
            pythonSlice aggregate_text 25000 ++ metaContextTail ∧
    (pythonSlice aggregate_text 25000).data = aggregate_text.data.take 25000 ∧
    (pythonSlice aggregate_text 25000).data <+: aggregate_text.data ∧
    (aggregate_text.length ≤ 25000 →
      pythonSlice aggregate_text 25000 = aggregate_text) := by
  refine ⟨rfl, rfl, List.take_prefix _ _, fun h => ?_⟩
  apply String.ext
  exact List.take_of_length_le h

theorem meta_prompt_truncates_evidence_witness :
    ("short evidence".length ≤ 25000) ∧
    pythonSlice "short evidence" 25000 = "short evidence" :=
  ⟨by decide,
   (meta_prompt_truncates_evidence "instr" "[]" "short evidence").2.2.2 (by decide)⟩

/-- One entry of `misinformationAnalysis.flags`. -/
structure DocFlag where
  claim : String
  reasoning : String

/-- The `misinformationAnalysis` block of the document schema. -/
structure MisinfoAnalysis where
  dangerScore : ℚ
  flags : List DocFlag
  explanation : String

/-- The `finalReport` block of the document schema. -/
structure DocFinalReport where
  findings : String
  recommendations : String

/-- The structured result of `run_gemini_analysis` (the fields every code
path populates; a parsed collaborator response is modelled as already in
this shape, which the enforced `response_schema` guarantees). -/
structure DocReport where
  misinformationAnalysis : MisinfoAnalysis
  summary : String
  finalReport : DocFinalReport

/-- Python whitespace for `str.strip()` (ASCII whitespace; the vertical-tab
and form-feed characters are written numerically). -/
def isPySpace (c : Char) : Bool :=
  c = ' ' || c = '\t' || c = '\n' || c = '\r' ||
    c = Char.ofNat 11 || c = Char.ofNat 12

/-- Python `str.strip()`. -/
def pyStrip (s : String) : String :=
  ⟨((s.data.dropWhile isPySpace).reverse.dropWhile isPySpace).reverse⟩

/-- The safe empty structure returned when the document text is blank. -/
def emptyDocReport : DocReport :=
  { misinformationAnalysis :=
      { dangerScore := 0, flags := [], explanation := "No text content found." },
    summary := "Empty file.",
    finalReport :=
      { findings := "No content.", recommendations := "Check file input." } }

/-- The robust fallback of `run_gemini_analysis` for a raised or unparseable
collaborator response `e = str(e)`: dangerScore 50 and one explanatory
flag. -/
def fallbackDocReport (e : String) : DocReport :=
  { misinformationAnalysis :=
      { dangerScore := 50,
        flags := [{ claim := "Analysis Error", reasoning := e }],
        explanation := "AI Analysis failed to process this file." },
    summary := "Error during analysis.",
    finalReport :=
      { findings := "System Error.", recommendations := "Retry analysis." } }

/-- `doc_misinfo_agent.run_gemini_analysis` (lines 164-234). `keySet` is
whether `GEMINI_API_KEY` is configured (`_init_gemini` raises when it is
not, before the guarded call); `gemini` is the remote
`model.generate_content` call returning the raw response text; `jsonParse`
is `json.loads` on that text. The `try`/`except` covers exactly the remote
call and the parse, mapping either failure to the fallback object. -/
def run_gemini_analysis (keySet : Bool) (gemini : String → Except String String)
    (jsonParse : String → Except String DocReport) (text_content : String) :
    Except String DocReport :=
  if !keySet then
    .error "GEMINI_API_KEY environment variable not set."
  else if pyStrip text_content = "" then
    .ok emptyDocReport
  else
    .ok (match gemini text_content with
      | .error e => fallbackDocReport e
      | .ok raw =>
          match jsonParse raw with
          | .ok r => r
          | .error e => fallbackDocReport e)

/-- Claim C7: when the risk-scoring collaborator call raises or its response
cannot be parsed as structured data, `run_gemini_analysis` returns the fixed
degraded default — `dangerScore` 50 and a non-empty `flags` list — instead
of raising. -/
theorem doc_degraded_fallback (gemini : String → Except String String)
    (jsonParse : String → Except String DocReport) (text_content e : String)
    (hblank : pyStrip text_content ≠ "")
    (hfail : gemini text_content = .error e ∨
      ∃ raw, gemini text_content = .ok raw ∧ jsonParse raw = .error e) :
    run_gemini_analysis true gemini jsonParse text_content
        = .ok (fallbackDocReport e) ∧
    (fallbackDocReport e).misinformationAnalysis.dangerScore = 50 ∧
    (fallbackDocReport e).misinformationAnalysis.flags ≠ [] := by
  refine ⟨?_, rfl, by simp [fallbackDocReport]⟩
  rw [run_gemini_analysis, if_neg (by simp), if_neg hblank]
  rcases hfail with h | ⟨raw, hok, hparse⟩
  · rw [h]
  · rw [hok]
    show Except.ok (match jsonParse raw with
        | Except.ok r => r
        | Except.error e => fallbackDocReport e)
      = Except.ok (fallbackDocReport e)
    rw [hparse]

/-- A collaborator stub returning unparseable output. -/
def unparseableGemini : String → Except String String := fun _ => .ok "not json"

/-- `json.loads` on non-JSON text raises `JSONDecodeError`. -/
def strictJsonParse : String → Except String DocReport :=
  fun _ => .error "Expecting value: line 1 column 1 (char 0)"

theorem doc_degraded_fallback_witness :
    pyStrip "hello" ≠ "" ∧
    run_gemini_analysis true unparseableGemini strictJsonParse "hello"
        = .ok (fallbackDocReport "Expecting value: line 1 column 1 (char 0)") ∧
    (fallbackDocReport
        "Expecting value: line 1 column 1 (char 0)").misinformationAnalysis.dangerScore
      = 50 :=
  have h := doc_degraded_fallback unparseableGemini strictJsonParse "hello"
    "Expecting value: line 1 column 1 (char 0)" (by decide)
    (Or.inr ⟨"not json", rfl, rfl⟩)
  ⟨by decide, h.1, h.2.1⟩

/-- The Python exception kinds distinguished by the `except` clauses of
`analyze_image_with_rd_and_gemini`: `requests` Timeout, the local
`HTTPException` stub, other `RequestException`s, and any other exception. -/
inductive PyErr where
  | timeout : PyErr
  | http (status : Nat) (detail : String) : PyErr
  | request (msg : String) : PyErr
  | other (msg : String) : PyErr

/-- `str(e)` for each exception kind (`HTTPException.__init__` passes
`detail` to `super().__init__`, so `str(e) = detail`). -/
def PyErr.text : PyErr → String
  | .timeout => "timeout"
  | .http _ d => d
  | .request m => m
  | .other m => m

/-- Python `round(x, 2)`: two-decimal rounding. (CPython rounds half to
even on binary floats; the difference from half-up arises only at exact
half-way points, which no claim involves.) -/
def round2 (x : ℚ) : ℚ := (⌊x * 100 + 1/2⌋ : ℚ) / 100

/-- The image-adapter result dict. `rd_raw` is the raw provider payload on
success; on every error path the code stores `{"error": ...}` there, which
is modelled by `rd_raw_error`. -/
structure ImgReport where
  verdict : String
  authenticity_score : ℚ
  tamperingPercentage : ℚ
  explanation : String
  rd_raw_error : Option String

/-- The remote steps of the image pipeline for one call, as oracles:
`request_presigned_url` (returning the signed URL and optional request id),
`upload_file_to_signed_url`, `extract_request_id_from_url`, `get_rd_result`
(returning `resultsSummary.metadata.finalScore`), and the Gemini
`generate_explanation` call. -/
structure ImgOracles where
  presign : Except PyErr (String × Option String)
  upload : Except PyErr Unit
  extractId : Option String
  rd_result : String → Except PyErr ℚ
  explain : ℚ → Except PyErr String

/-- The body of the `try` block of `analyze_image_with_rd_and_gemini`
(lines 171-211): presign, upload, resolve the request id (raising
`HTTPException(500, ...)` when absent), poll for the final score, generate
the explanation, then normalize verdict and authenticity score. -/
def runImgPipeline (o : ImgOracles) : Except PyErr ImgReport := do
  let pr ← o.presign
  let _ ← o.upload
  let rid ← (match pr.2 with
    | some r => Except.ok r
    | none =>
        match o.extractId with
        | some r => Except.ok r
        | none => Except.error (PyErr.http 500 "Request ID missing from RD response."))
  let tamper_pct ← o.rd_result rid
  let explanation ← o.explain tamper_pct
  let authenticity_score := max 0 (min 1 ((100 - tamper_pct) / 100))
  let verdict :=
    if tamper_pct < 25 then "Likely Original"
    else if tamper_pct < 60 then "Possibly Manipulated"
    else "Likely Deepfake / Manipulated"
  return { verdict := verdict, authenticity_score := round2 authenticity_score,
           tamperingPercentage := tamper_pct, explanation := explanation,
           rd_raw_error := none }

/-- `image_deepfake_agent.analyze_image_with_rd_and_gemini` (lines 158-251):
the `try` body above, with every raised exception converted — per kind — to
a normal result dict whose `rd_raw` carries an error marker. -/
def analyze_image_with_rd_and_gemini (o : ImgOracles) : ImgReport :=
  match runImgPipeline o with
  | .ok r => r
  | .error .timeout =>
      { verdict := "Unknown", authenticity_score := 0, tamperingPercentage := 0,
        explanation :=
          "Image analysis service (Reality Defender) timed out. Please retry after some time.",
        rd_raw_error := some "RD timeout" }
  | .error (.http s d) =>
      { verdict := "Error", authenticity_score := 0, tamperingPercentage := 0,
        explanation := "Image analysis failed: " ++ d,
        rd_raw_error := some (PyErr.text (.http s d)) }
  | .error (.request m) =>
      { verdict := "Error", authenticity_score := 0, tamperingPercentage := 0,
        explanation := "Network error while calling Reality Defender: " ++ m,
        rd_raw_error := some m }
  | .error (.other m) =>
      { verdict := "Error", authenticity_score := 0, tamperingPercentage := 0,
        explanation := "Unexpected error in image analysis: " ++ m,
        rd_raw_error := some m }

/-- The normalized audio result of `analyze_audio_file`. -/
structure AudioResult where
  fileName : String
  transcript_id : String
  text : String
  status : String

/-- The remote steps of the audio pipeline: the resolved API key (`none`
makes `_get_api_key` raise `ValueError`), `upload_file_to_assemblyai`,
`request_transcription_from_assemblyai` (returning the optional job id) and
`poll_transcript_status` (returning the final transcript text and status).
Every `.error` models a raised `AssemblyAIError`. -/
structure AudioOracles where
  apiKey : Option String
  upload : String → Except String String
  requestJob : String → Except String (Option String)
  poll : String → Except String (String × String)

/-- `audio_agent.analyze_audio_file` (lines 167-216). Note there is no
`try`/`except` anywhere in this function or its helpers: the key lookup and
every remote step propagate their exceptions to the caller (the module
docstring itself documents `Raises: ValueError ... AssemblyAIError ...`). -/
def analyze_audio_file (o : AudioOracles) (file_path : String) :
    Except String AudioResult := do
  let _key ← (match o.apiKey with
    | some k => Except.ok k
    | none => Except.error
        "AssemblyAI API key not found. Set the ASSEMBLYAI_API_KEY environment variable or pass api_key argument to analyze_audio_file().")
  let upload_url ← o.upload file_path
  let tid? ← o.requestJob upload_url
  let tid ← (match tid? with
    | some t => Except.ok t
    | none => Except.error "Transcription request returned no id")
  let final ← o.poll tid
  return { fileName := basename file_path, transcript_id := tid,
           text := final.1, status := final.2 }

/-- Audio oracles whose upload step raises. -/
def audioUploadFails : AudioOracles where
  apiKey := some "key"
  upload := fun _ => .error "Upload failed: boom"
  requestJob := fun _ => .ok (some "t1")
  poll := fun _ => .ok ("", "completed")

/-- Counterexample to claim C4 as stated: the audio adapter does NOT catch
errors of its underlying remote call — when the AssemblyAI upload raises,
`analyze_audio_file` propagates the exception to its caller instead of
returning a FileResult with `error` populated. -/
theorem audio_adapter_propagates_counterexample :
    analyze_audio_file audioUploadFails "a.mp3"
      = Except.error "Upload failed: boom" := rfl

/-- Claim C4, amended: the image adapter catches every error of its remote
pipeline and converts it into a result dict with the error recorded (and an
`Unknown`/`Error` verdict); the document adapter, once its key is
configured, returns a result no matter what the remote call does; the audio
adapter propagates its exceptions, and it is the scheduler layer
(`_run_pipeline_for_file`) that converts them into an error FileResult. -/
theorem adapter_failure_isolation :
    (∀ (o : ImgOracles) (e : PyErr), runImgPipeline o = .error e →
        (analyze_image_with_rd_and_gemini o).rd_raw_error.isSome = true ∧
        ((analyze_image_with_rd_and_gemini o).verdict = "Unknown" ∨
          (analyze_image_with_rd_and_gemini o).verdict = "Error")) ∧
    (∀ (gemini : String → Except String String)
        (jsonParse : String → Except String DocReport) (text_content : String),
        ∃ r, run_gemini_analysis true gemini jsonParse text_content = .ok r) ∧
    (∀ (A : Adapters) (p e : String), A.audio p = .error e →
        run_pipeline_for_file A p MediaCategory.audio
          = ⟨basename p, some "audio", none, some e, none⟩) := by
  refine ⟨?_, ?_, ?_⟩
  · intro o e h
    rw [analyze_image_with_rd_and_gemini, h]
    cases e with
    | timeout => exact ⟨rfl, Or.inl rfl⟩
    | http s d => exact ⟨rfl, Or.inr rfl⟩
    | request m => exact ⟨rfl, Or.inr rfl⟩
    | other m => exact ⟨rfl, Or.inr rfl⟩
  · intro gemini jsonParse text_content
    rw [run_gemini_analysis, if_neg (by simp)]
    by_cases hb : pyStrip text_content = ""
    · rw [if_pos hb]
      exact ⟨emptyDocReport, rfl⟩
    · rw [if_neg hb]
      exact ⟨_, rfl⟩
  · intro A p e h
    simp [run_pipeline_for_file, h]

theorem adapter_failure_isolation_witness :
    runImgPipeline
        { presign := .error .timeout, upload := .ok (), extractId := none,
          rd_result := fun _ => .ok 0, explain := fun _ => .ok "" }
      = .error .timeout ∧
    (analyze_image_with_rd_and_gemini
        { presign := .error .timeout, upload := .ok (), extractId := none,
          rd_result := fun _ => .ok 0,
          explain := fun _ => .ok "" }).rd_raw_error.isSome = true ∧
    oneFailAdapters.audio "a.mp3" = .error "boom" ∧
    run_pipeline_for_file oneFailAdapters "a.mp3" MediaCategory.audio
      = ⟨"a.mp3", some "audio", none, some "boom", none⟩ :=
  ⟨rfl,
   (adapter_failure_isolation.1
     { presign := .error .timeout, upload := .ok (), extractId := none,
       rd_result := fun _ => .ok 0, explain := fun _ => .ok "" } .timeout rfl).1,
   by simp [oneFailAdapters],
   adapter_failure_isolation.2.2 oneFailAdapters "a.mp3" "boom"
     (by simp [oneFailAdapters])⟩

/-- `frame_interval = int(fps * seconds_per_check)` with
`seconds_per_check = 2.0`, after the `if fps <= 0: fps = 30` default
(`video_agent.analyze_video_frames`, lines 43-48). -/
def frame_interval (fps : ℚ) : ℕ :=
  (⌊(if fps ≤ 0 then 30 else fps) * 2⌋).toNat

/-- The accumulator of the frame-scanning loop: `total_analyzed`,
`fake_frames`, `highest_fake_score`. -/
structure FrameStats where
  total : ℕ
  fake : ℕ
  highest : ℚ

/-- The `while` loop of `analyze_video_frames` (lines 59-86) over the
decoded frames. A frame is sampled when `frame_idx % frame_interval == 0`;
its analysis outcome is the corresponding list entry: `.ok score` is the
`tamperingPercentage` obtained from `analyze_image_with_rd_and_gemini`,
`.error` a raised per-frame exception (e.g. `cv2.imwrite` failure), which
the inner `try`/`except` logs and skips. -/
def frameLoop (interval : ℕ) : ℕ → FrameStats → List (Except String ℚ) → FrameStats
  | _, acc, [] => acc
  | idx, acc, f :: rest =>
      let acc' :=
        if idx % interval = 0 then
          match f with
          | .ok score =>
              { total := acc.total + 1,
                fake := acc.fake + (if score > 60 then 1 else 0),
                highest := if score > acc.highest then score else acc.highest }
          | .error _ => acc
        else acc
      frameLoop interval (idx + 1) acc' rest

/-- The dict returned by `analyze_video_frames` (lines 95-101). -/
structure VideoVisuals where
  frames_analyzed : ℕ
  fake_frames_count : ℕ
  fake_ratio_percent : ℚ
  max_fake_score : ℚ
  analysis_strategy : String

/-- `video_agent.analyze_video_frames` (lines 33-101) on an opened video:
scan the frames, then
`fake_ratio = (fake_frames / total_analyzed * 100) if total_analyzed > 0
else 0` and the rounded summary fields. -/
def analyze_video_frames (fps : ℚ) (frames : List (Except String ℚ)) :
    VideoVisuals :=
  let stats := frameLoop (frame_interval fps) 0 ⟨0, 0, 0⟩ frames
  let fake_ratio : ℚ :=
    if stats.total > 0 then (stats.fake : ℚ) / (stats.total : ℚ) * 100 else 0
  { frames_analyzed := stats.total,
    fake_frames_count := stats.fake,
    fake_ratio_percent := round2 fake_ratio,
    max_fake_score := round2 stats.highest,
    analysis_strategy := "Full Timeline (1 frame / 2s)" }

/-- The dict returned by `run_video_forensics`. -/
structure VideoForensics where
  verdict : String
  authenticity_score : ℚ
  metadata : Json
  visual_analysis : VideoVisuals

/-- `video_agent.run_video_forensics` (lines 103-116): verdict from the
fake-frame count, `authenticity_score = (100 - max_fake_score) / 100.0`
computed from the (already rounded) `max_fake_score` field. -/
def run_video_forensics (meta : Json) (fps : ℚ)
    (frames : List (Except String ℚ)) : VideoForensics :=
  let visuals := analyze_video_frames fps frames
  { verdict :=
      if visuals.fake_frames_count > 0 then "Tampering Detected"
      else "Likely Original",
    authenticity_score := (100 - visuals.max_fake_score) / 100,
    metadata := meta,
    visual_analysis := visuals }

/-- The tampering scores of the successfully analysed sampled frames, in
order, starting the index count at `idx`. -/
def sampledScoresAux (interval : ℕ) : ℕ → List (Except String ℚ) → List ℚ
  | _, [] => []
  | idx, f :: rest =>
      (if idx % interval = 0 then
        (match f with | .ok s => [s] | .error _ => [])
      else []) ++ sampledScoresAux interval (idx + 1) rest

/-- The tampering scores of the successfully analysed sampled frames. -/
def sampledScores (interval : ℕ) (frames : List (Except String ℚ)) : List ℚ :=
  sampledScoresAux interval 0 frames

theorem frameLoop_spec (interval : ℕ) (frames : List (Except String ℚ)) :
    ∀ (idx : ℕ) (acc : FrameStats),
      (frameLoop interval idx acc frames).total
          = acc.total + (sampledScoresAux interval idx frames).length ∧
      (frameLoop interval idx acc frames).fake
          = acc.fake + (sampledScoresAux interval idx frames).countP
              (fun s => decide (s > 60)) ∧
      (frameLoop interval idx acc frames).highest
          = (sampledScoresAux interval idx frames).foldl max acc.highest := by
  induction frames with
  | nil => intro idx acc; simp [frameLoop, sampledScoresAux]
  | cons f rest ih =>
      intro idx acc
      by_cases hm : idx % interval = 0
      · cases f with
        | ok score =>
            have hmax : (if score > acc.highest then score else acc.highest)
                = max acc.highest score := by
              by_cases hgt : score > acc.highest
              · rw [if_pos hgt, max_eq_right (le_of_lt hgt)]
              · rw [if_neg hgt, max_eq_left (not_lt.mp hgt)]
            have h := ih (idx + 1)
              ⟨acc.total + 1, acc.fake + (if score > 60 then 1 else 0),
               if score > acc.highest then score else acc.highest⟩
            simp only [frameLoop, if_pos hm] at *
            refine ⟨?_, ?_, ?_⟩
            · rw [h.1]
              simp [sampledScoresAux, hm]
              omega
            · rw [h.2.1]
              simp [sampledScoresAux, hm, List.countP_cons]
              by_cases h60 : score > 60 <;> simp [h60] <;> omega
            · rw [h.2.2]
              simp [sampledScoresAux, hm, hmax]
        | error msg =>
            have h := ih (idx + 1) acc
            simp only [frameLoop, if_pos hm] at *
            simpa [sampledScoresAux, hm] using h
      · have h := ih (idx + 1) acc
        simp only [frameLoop, if_neg hm] at *
        simpa [sampledScoresAux, hm] using h

theorem frame_interval_thirty : frame_interval 30 = 60 := by
  unfold frame_interval
  rw [if_neg (by norm_num), show ⌊(30 : ℚ) * 2⌋ = 60 from by norm_num]
  rfl

/-- Counterexample to claim C8 as stated: the authenticity score is computed
from the max score rounded to two decimals (`round(highest_fake_score, 2)`),
not from the raw maximum. With a single analysed frame of score 33.333 the
maximum seen is 33.333, but the reported score is (100 - 33.33)/100, not
(100 - 33.333)/100. -/
theorem video_authenticity_rounding_counterexample :
    sampledScores (frame_interval 30) [Except.ok (33333/1000 : ℚ)]
      = [(33333/1000 : ℚ)] ∧
    (run_video_forensics Json.null 30
        [Except.ok (33333/1000 : ℚ)]).authenticity_score
      = (100 - (3333/100 : ℚ)) / 100 ∧
    (run_video_forensics Json.null 30
        [Except.ok (33333/1000 : ℚ)]).authenticity_score
      ≠ (100 - (33333/1000 : ℚ)) / 100 := by
  have hmax : (analyze_video_frames 30
      [Except.ok (33333/1000 : ℚ)]).max_fake_score = 3333/100 := by
    show round2 (frameLoop (frame_interval 30) 0 ⟨0, 0, 0⟩
      [Except.ok (33333/1000 : ℚ)]).highest = 3333/100
    rw [frame_interval_thirty]
    have hloop : (frameLoop 60 0 ⟨0, 0, 0⟩
        [Except.ok (33333/1000 : ℚ)]).highest = 33333/1000 := by
      show (frameLoop 60 1 ⟨0 + 1, 0 + (if (33333/1000 : ℚ) > 60 then 1 else 0),
        if (33333/1000 : ℚ) > 0 then (33333/1000 : ℚ) else 0⟩ []).highest
          = 33333/1000
      show (if (33333/1000 : ℚ) > 0 then (33333/1000 : ℚ) else 0) = 33333/1000
      rw [if_pos (by norm_num)]
    rw [hloop, round2]
    norm_num
  have hauth : (run_video_forensics Json.null 30
      [Except.ok (33333/1000 : ℚ)]).authenticity_score
        = (100 - (analyze_video_frames 30
            [Except.ok (33333/1000 : ℚ)]).max_fake_score) / 100 := rfl
  refine ⟨?_, ?_, ?_⟩
  · rw [frame_interval_thirty]
    rfl
  · rw [hauth, hmax]
  · rw [hauth, hmax]
    norm_num

/-- Claim C8, amended: the verdict is `"Tampering Detected"` iff the number
of successfully analysed sampled frames with tampering score above 60 is
positive (else `"Likely Original"`), and the authenticity score equals
`(100 - round2 maxTamperScore) / 100` where `maxTamperScore` is the maximum
tampering score seen across the successfully analysed frames (0 when there
is none) and `round2` is the two-decimal rounding the code applies to the
reported `max_fake_score`. The hypothesis `0 < frame_interval fps` excludes
`fps < 0.5`, where the Python loop would raise `ZeroDivisionError` on
`frame_idx % frame_interval`. -/
theorem video_verdict_and_authenticity (meta : Json) (fps : ℚ)
    (frames : List (Except String ℚ)) (hI : 0 < frame_interval fps) :
    ((run_video_forensics meta fps frames).verdict = "Tampering Detected" ↔
        0 < (sampledScores (frame_interval fps) frames).countP
              (fun s => decide (s > 60))) ∧
    ((run_video_forensics meta fps frames).verdict = "Tampering Detected" ∨
        (run_video_forensics meta fps frames).verdict = "Likely Original") ∧
    (run_video_forensics meta fps frames).visual_analysis.max_fake_score
        = round2 ((sampledScores (frame_interval fps) frames).foldl max 0) ∧
    (run_video_forensics meta fps frames).authenticity_score
        = (100 - round2 ((sampledScores (frame_interval fps) frames).foldl max 0))
            / 100 := by
  have h := frameLoop_spec (frame_interval fps) frames 0 ⟨0, 0, 0⟩
  have hfake : (analyze_video_frames fps frames).fake_frames_count
      = (sampledScores (frame_interval fps) frames).countP
          (fun s => decide (s > 60)) := by
    show (frameLoop (frame_interval fps) 0 ⟨0, 0, 0⟩ frames).fake = _
    rw [h.2.1]
    simp [sampledScores]
  have hmax : (analyze_video_frames fps frames).max_fake_score
      = round2 ((sampledScores (frame_interval fps) frames).foldl max 0) := by
    show round2 (frameLoop (frame_interval fps) 0 ⟨0, 0, 0⟩ frames).highest = _
    rw [h.2.2]
    rfl
  have hverdict : (run_video_forensics meta fps frames).verdict
      = if (analyze_video_frames fps frames).fake_frames_count > 0
          then "Tampering Detected" else "Likely Original" := rfl
  have hauth : (run_video_forensics meta fps frames).authenticity_score
      = (100 - (analyze_video_frames fps frames).max_fake_score) / 100 := rfl
  have hva : (run_video_forensics meta fps frames).visual_analysis
      = analyze_video_frames fps frames := rfl
  refine ⟨?_, ?_, ?_, ?_⟩
  · rw [hverdict, hfake]
    by_cases hc : 0 < (sampledScores (frame_interval fps) frames).countP
        (fun s => decide (s > 60))
    · rw [if_pos hc]
      exact iff_of_true rfl hc
    · rw [if_neg hc]
      exact iff_of_false (by decide) hc
  · rw [hverdict]
    by_cases hc : (analyze_video_frames fps frames).fake_frames_count > 0
    · rw [if_pos hc]
      exact Or.inl rfl
    · rw [if_neg hc]
      exact Or.inr rfl
  · rw [hva, hmax]
  · rw [hauth, hmax]

theorem video_verdict_and_authenticity_witness :
    (0 < frame_interval 30) ∧
    ((run_video_forensics Json.null 30
        [Except.ok (80 : ℚ), Except.error "skip", Except.ok (10 : ℚ)]).verdict
      = "Tampering Detected" ↔
      0 < (sampledScores (frame_interval 30)
            [Except.ok (80 : ℚ), Except.error "skip",
             Except.ok (10 : ℚ)]).countP (fun s => decide (s > 60))) :=
  ⟨by rw [frame_interval_thirty]; omega,
   (video_verdict_and_authenticity Json.null 30
     [Except.ok (80 : ℚ), Except.error "skip", Except.ok (10 : ℚ)]
     (by rw [frame_interval_thirty]; omega)).1⟩

/-- Claim C10: when zero frames are successfully analysed, the reported
`fake_ratio_percent` is 0 — the division `fake_frames / total_analyzed` is
guarded by the `total_analyzed > 0` check — rather than a division error.
(The `0 < frame_interval fps` hypothesis again excludes the `fps < 0.5`
region where the Python loop itself would raise on `%`.) -/
theorem video_zero_frames_ratio_zero (fps : ℚ) (frames : List (Except String ℚ))
    (hI : 0 < frame_interval fps)
    (hz : (analyze_video_frames fps frames).frames_analyzed = 0) :
    (analyze_video_frames fps frames).fake_ratio_percent = 0 := by
  have hz' : (frameLoop (frame_interval fps) 0 ⟨0, 0, 0⟩ frames).total = 0 := hz
  show round2 (if (frameLoop (frame_interval fps) 0 ⟨0, 0, 0⟩ frames).total > 0
      then _ else 0) = 0
  rw [hz']
  norm_num [round2]

theorem video_zero_frames_ratio_zero_witness :
    (0 < frame_interval 30) ∧
    (analyze_video_frames 30 [Except.error "frame analysis failed"]).frames_analyzed
      = 0 ∧
    (analyze_video_frames 30 [Except.error "frame analysis failed"]).fake_ratio_percent
      = 0 := by
  have hI : 0 < frame_interval 30 := by rw [frame_interval_thirty]; omega
  have hz : (analyze_video_frames 30
      [Except.error "frame analysis failed"]).frames_analyzed = 0 := by
    show (frameLoop (frame_interval 30) 0 ⟨0, 0, 0⟩
      [Except.error "frame analysis failed"]).total = 0
    rw [frame_interval_thirty]
    rfl
  exact ⟨hI, hz,
    video_zero_frames_ratio_zero 30 [Except.error "frame analysis failed"] hI hz⟩

end ForeSight
